import Mathlib

open scoped List

/-!
Shallow embedding of the e-commerce dataset pipeline
(`generate_data.py`, `ingest_to_sqlite.py`, `run_queries.py`).

Conventions of the embedding:
* Python's global Mersenne-Twister state is abstracted as a draw stream
  `g : RNG` (`Nat → Nat`) together with an explicit index that each random
  primitive advances; a primitive that consumes one draw reads `g idx`.
* `decimal.Decimal` values with two fractional digits (the `money` strings)
  are embedded as rationals `ℚ`; `money` is `Decimal.quantize("0.01",
  ROUND_HALF_UP)`.
* Datetimes are embedded as seconds (`Nat`).  `strftime("%Y-%m-%d")`, which
  records only the calendar date, is embedded as truncation to the start of
  the day (`dayStart`).
* Fallible Python calls (`random.choice` on an empty sequence,
  `random.randint` on an empty range, `random.sample` with an oversized
  request, a missing input file) are embedded with `Except String`.
-/

/-- Abstract stream of pseudo-random draws standing for the global
`random` generator seeded at import time. -/
abbrev RNG := Nat → Nat

/-- Total core of `random.randint(a, b)` for `a ≤ b`: the draw reduced into
the closed interval `[a, b]`. -/
def randintT (a b draw : Nat) : Nat :=
  a + draw % (b - a + 1)

/-- Python `random.randint(a, b)`: raises `ValueError` when the range is
empty (`b < a`), otherwise yields a value in `[a, b]`. -/
def randint (a b draw : Nat) : Except String Nat :=
  if b < a then .error "empty range for randrange" else .ok (randintT a b draw)

/-- Python `random.choice(seq)`: raises `IndexError` on an empty sequence,
otherwise returns an element selected by the draw. -/
def choice {α : Type} (xs : List α) (draw : Nat) : Except String α :=
  match xs with
  | [] => .error "Cannot choose from an empty sequence"
  | x :: rest => .ok ((x :: rest).getD (draw % (x :: rest).length) x)

/-- `random_date(start, end)` from `generate_data.py`:
`start + timedelta(seconds=random.randint(0, delta_seconds))`.
In every call of the source `end` is at least `start`, so the inner
`randint(0, delta)` never sees an empty range and is embedded totally. -/
def random_date (startT endT draw : Nat) : Nat :=
  startT + randintT 0 (endT - startT) draw

/-- `strftime("%Y-%m-%d")` keeps only the calendar date of a timestamp;
embedded as the timestamp of that day's midnight. -/
def dayStart (t : Nat) : Nat :=
  t - t % 86400

/-- `decimal.ROUND_HALF_UP` applied at integer precision: round to the
nearest integer, ties away from zero. -/
def roundHalfUp (q : ℚ) : ℤ :=
  if 0 ≤ q then ⌊q + 1 / 2⌋ else -⌊-q + 1 / 2⌋

/-- The `money` helper of `generate_data.py`:
`Decimal(value).quantize(Decimal("0.01"), rounding=ROUND_HALF_UP)` —
round to two fractional digits, ties away from zero. -/
def money (q : ℚ) : ℚ :=
  (roundHalfUp (100 * q) : ℚ) / 100

/-- A rational is a two-fractional-digit decimal (an integer number of
cents), the shape of every `money` string of the generator. -/
def Is2dp (q : ℚ) : Prop :=
  ∃ n : ℤ, q = (n : ℚ) / 100

/-! ## Data model (the five dataclasses of `generate_data.py`) -/

/-- Dataclass `User`. -/
structure User where
  user_id : Nat
  name : String
  email : String
  phone : String
  created_at : Nat
  deriving DecidableEq, Repr

/-- Dataclass `Product`; `price` is the two-decimal money value. -/
structure Product where
  product_id : Nat
  name : String
  category : String
  price : ℚ
  stock : Nat
  deriving DecidableEq, Repr, Inhabited

/-- Dataclass `Order`; `order_date` is the recorded (date-only) timestamp. -/
structure Order where
  order_id : Nat
  user_id : Nat
  order_date : Nat
  total_amount : ℚ
  deriving DecidableEq, Repr

/-- Dataclass `OrderItem`. -/
structure OrderItem where
  order_item_id : Nat
  order_id : Nat
  product_id : Nat
  quantity : Nat
  unit_price : ℚ
  deriving DecidableEq, Repr

/-- Dataclass `Payment`; `paid_at` keeps full datetime precision. -/
structure Payment where
  payment_id : Nat
  order_id : Nat
  amount : ℚ
  method : String
  status : String
  paid_at : Nat
  deriving DecidableEq, Repr

/-! ## generate_users -/

/-- The literal first-name pool of `generate_users`. -/
def firstNames : List String :=
  ["Ava", "Liam", "Noah", "Olivia", "Ethan", "Sophia", "Mason", "Emma",
   "Isabella", "Lucas", "Mia", "Elijah"]

/-- The literal last-name pool of `generate_users`. -/
def lastNames : List String :=
  ["Thompson", "Rodriguez", "Patel", "Chen", "Walker", "Nguyen", "Johnson",
   "Garcia", "Wright", "Kim", "Davis", "Bennett"]

/-- Loop body of `generate_users`: one user per `uid` in `1..count`,
consuming five draws per user (first name, last name, two phone parts,
creation date). -/
def genUsersLoop (g : RNG) (today : Nat) : Nat → Nat → Nat → Except String (List User)
  | 0, _, _ => .ok []
  | fuel + 1, uid, idx =>
    match choice firstNames (g idx) with
    | .error e => .error e
    | .ok first =>
      match choice lastNames (g (idx + 1)) with
      | .error e => .error e
      | .ok last =>
        let area := randintT 200 999 (g (idx + 2))
        let lineNum := randintT 1000 9999 (g (idx + 3))
        let created := random_date (today - 365 * 86400) (today - 10 * 86400) (g (idx + 4))
        match genUsersLoop g today fuel (uid + 1) (idx + 5) with
        | .error e => .error e
        | .ok rest =>
          .ok ({ user_id := uid,
                 name := first ++ " " ++ last,
                 email := (first ++ "." ++ last ++ toString uid ++ "@example.com").toLower,
                 phone := "555-" ++ toString area ++ "-" ++ toString lineNum,
                 created_at := dayStart created } :: rest)

/-- `generate_users(count)` of `generate_data.py`. -/
def generate_users (g : RNG) (today count : Nat) : Except String (List User) :=
  genUsersLoop g today count 1 0

/-! ## generate_products -/

/-- The literal adjective pool of `generate_products`. -/
def adjectives : List String :=
  ["Aurora", "Summit", "TrailRunner", "Cypress", "Horizon", "Breeze",
   "Cascade", "Drift"]

/-- The literal noun pool of `generate_products`. -/
def nouns : List String :=
  ["Laptop", "Headphones", "Smartwatch", "Coffee Grinder", "Standing Desk",
   "Air Purifier", "Water Bottle", "Wireless Mouse"]

/-- The literal category pool of `generate_products`. -/
def categories : List String :=
  ["Electronics", "Wearables", "Kitchen", "Furniture", "Home", "Outdoors",
   "Accessories"]

/-- Loop body of `generate_products`: one product per `pid` in `1..count`,
consuming five draws per product.  `random.uniform(20, 1200)` draws a
binary float; its value is abstracted as the rational `priceDraw` reads at
the position of that draw (the price is then `money` of it, exactly as in
the source: `price=money(base_price)`). -/
def genProductsLoop (g : RNG) (priceDraw : Nat → ℚ) : Nat → Nat → Nat → Except String (List Product)
  | 0, _, _ => .ok []
  | fuel + 1, pid, idx =>
    match choice adjectives (g idx) with
    | .error e => .error e
    | .ok adj =>
      match choice nouns (g (idx + 1)) with
      | .error e => .error e
      | .ok noun =>
        match choice categories (g (idx + 2)) with
        | .error e => .error e
        | .ok cat =>
          let basePrice := priceDraw (idx + 3)
          let stock := randintT 20 400 (g (idx + 4))
          match genProductsLoop g priceDraw fuel (pid + 1) (idx + 5) with
          | .error e => .error e
          | .ok rest =>
            .ok ({ product_id := pid,
                   name := adj ++ " " ++ noun,
                   category := cat,
                   price := money basePrice,
                   stock := stock } :: rest)

/-- `generate_products(count)` of `generate_data.py`. -/
def generate_products (g : RNG) (priceDraw : Nat → ℚ) (count : Nat) : Except String (List Product) :=
  genProductsLoop g priceDraw count 1 0

/-! ## random.sample and the per-order loops -/

/-- Selection loop of CPython's `random.sample` (the pool branch): repeat
`k` times: pick index `j` below the live pool size, take `pool[j]`, move the
last live element into slot `j`, shrink the live region.  The live region is
represented directly as the pool list. -/
def sampleLoop (g : RNG) : Nat → List Product → Nat → List Product × Nat
  | 0, _, idx => ([], idx)
  | k + 1, pool, idx =>
    let j := g idx % pool.length
    let x := pool.getD j default
    let pool2 := (pool.set j (pool.getLastD default)).dropLast
    let r := sampleLoop g k pool2 (idx + 1)
    (x :: r.1, r.2)

/-- Python `random.sample(population, k)`: raises `ValueError` when the
requested size exceeds the population, otherwise returns `k` selections
without replacement. -/
def sample (g : RNG) (population : List Product) (k idx : Nat) :
    Except String (List Product × Nat) :=
  if k ≤ population.length then .ok (sampleLoop g k population idx)
  else .error "Sample larger than population or is negative"

/-- Inner loop over the sampled products of one order: each iteration draws
`qty = random.randint(1, 3)`, appends an `OrderItem` with
`unit_price=money(unit_price)`, and accumulates
`line_total += unit_price * qty` in exact decimal arithmetic.  Returns the
items, the line total, the next `order_item_id` and the next draw index. -/
def itemLoop (g : RNG) (oid : Nat) : List Product → Nat → Nat → List OrderItem × ℚ × Nat × Nat
  | [], oiid, idx => ([], 0, oiid, idx)
  | p :: rest, oiid, idx =>
    let qty := randintT 1 3 (g idx)
    let item : OrderItem :=
      { order_item_id := oiid, order_id := oid, product_id := p.product_id,
        quantity := qty, unit_price := money p.price }
    let r := itemLoop g oid rest (oiid + 1) (idx + 1)
    (item :: r.1, p.price * (qty : ℚ) + r.2.1, r.2.2.1, r.2.2.2)

/-- The literal payment-status pool of `generate_orders`. -/
def statusList : List String :=
  ["Completed", "Pending", "Failed"]

/-- The literal payment-method pool of `generate_orders`. -/
def methodList : List String :=
  ["Credit Card", "Debit Card", "PayPal", "Apple Pay"]

/-- One iteration of the `generate_orders` loop: choose a user, draw the
order datetime inside the 120-day window, draw the item count
`randint(1, min(4, len(products)))`, sample that many distinct products,
build the items and the line total, round the order total with `money`,
and build the payment (`random.choices` over the weighted statuses draws a
float; the selection is abstracted as an index draw from the same status
pool — no invariant depends on the weights).  `paid_at` is the full order
datetime plus `randint(1, 48)` hours, while the order records only the
date via `dayStart`. -/
def genOne (g : RNG) (users : List User) (products : List Product) (today : Nat)
    (oid pid oiid idx : Nat) :
    Except String (Order × List OrderItem × Payment × Nat × Nat) :=
  match choice users (g idx) with
  | .error e => .error e
  | .ok user =>
    let orderDate := random_date (today - 120 * 86400) (today - 86400) (g (idx + 1))
    match randint 1 (min 4 products.length) (g (idx + 2)) with
    | .error e => .error e
    | .ok k =>
      match sample g products k (idx + 3) with
      | .error e => .error e
      | .ok sampledAndIdx =>
        let r := itemLoop g oid sampledAndIdx.1 oiid sampledAndIdx.2
        let total := money r.2.1
        let order : Order :=
          { order_id := oid, user_id := user.user_id,
            order_date := dayStart orderDate, total_amount := total }
        let status := statusList.getD (g r.2.2.2 % statusList.length) "Completed"
        match choice methodList (g (r.2.2.2 + 1)) with
        | .error e => .error e
        | .ok method =>
          let hrs := randintT 1 48 (g (r.2.2.2 + 2))
          let pay : Payment :=
            { payment_id := pid, order_id := oid, amount := total,
              method := method, status := status,
              paid_at := orderDate + 3600 * hrs }
          .ok (order, r.1, pay, r.2.2.1, r.2.2.2 + 3)

/-- The `for oid in range(1, order_count + 1)` loop of `generate_orders`,
threading the order id, the payment id, the global `order_item_id` and the
draw index. -/
def genLoop (g : RNG) (users : List User) (products : List Product) (today : Nat) :
    Nat → Nat → Nat → Nat → Nat →
    Except String (List Order × List OrderItem × List Payment)
  | 0, _, _, _, _ => .ok ([], [], [])
  | fuel + 1, oid, pid, oiid, idx =>
    match genOne g users products today oid pid oiid idx with
    | .error e => .error e
    | .ok step =>
      match genLoop g users products today fuel (oid + 1) (pid + 1) step.2.2.2.1 step.2.2.2.2 with
      | .error e => .error e
      | .ok rest => .ok (step.1 :: rest.1, step.2.1 ++ rest.2.1, step.2.2.1 :: rest.2.2)

/-- `generate_orders(users, products, order_count)` of `generate_data.py`:
order ids, payment ids and order-item ids all start at 1. -/
def generate_orders (g : RNG) (users : List User) (products : List Product)
    (today order_count : Nat) :
    Except String (List Order × List OrderItem × List Payment) :=
  genLoop g users products today order_count 1 1 1 0

/-- The generation stage of `main()` in `generate_data.py`: users, then
products, then orders are generated in full; only after all three succeed
does `main` write the CSV files.  An error anywhere therefore yields no
output files at all.  The single global draw stream is split into one
stream per generator call (a relabeling of the positions each call reads;
no invariant relates draws across the three calls). -/
def generateDataMain (gU gP gO : RNG) (priceDraw : Nat → ℚ)
    (today userCount productCount orderCount : Nat) :
    Except String (List User × List Product × List Order × List OrderItem × List Payment) :=
  match generate_users gU today userCount with
  | .error e => .error e
  | .ok users =>
    match generate_products gP priceDraw productCount with
    | .error e => .error e
    | .ok products =>
      match generate_orders gO users products today orderCount with
      | .error e => .error e
      | .ok rest => .ok (users, products, rest.1, rest.2.1, rest.2.2)

/-! ## ingest_to_sqlite.py -/

/-- The five row tables of the SQLite store (`ecom.db`).  A row is kept as
its parsed CSV record; the loader's per-field `int`/`float` conversions
rename values injectively for the purposes of row presence, which is all
the load-atomicity claims speak about (the numeric precision of the
`float` conversion is a separate, floating-point matter). -/
structure Store where
  users : List (List String)
  products : List (List String)
  orders : List (List String)
  order_items : List (List String)
  payments : List (List String)
  deriving DecidableEq, Repr

/-- The store after `clear_tables`: every table emptied. -/
def emptyStore : Store :=
  { users := [], products := [], orders := [], order_items := [], payments := [] }

/-- The export directory as the loader sees it: whether `data/` exists, and
for each of the five expected CSV files either its parsed rows or `none`
when the file is missing. -/
structure DataFiles where
  dirExists : Bool
  usersFile : Option (List (List String))
  productsFile : Option (List (List String))
  ordersFile : Option (List (List String))
  orderItemsFile : Option (List (List String))
  paymentsFile : Option (List (List String))
  deriving DecidableEq, Repr

/-- `main()` of `ingest_to_sqlite.py` as a transition on the committed
store state.  The source commits in this order: `ensure_tables` (DDL only,
no row change), `clear_tables` (deletes every row of every table, then
`conn.commit()`), then five `executemany` inserts whose generators open the
CSV files lazily, and a single final `conn.commit()`.  Hence: a missing
directory aborts before the store is touched; a missing file aborts after
the deletes were committed but before any insert is committed (the process
dies and the open transaction rolls back), leaving the store empty; only a
fully successful run commits the inserted rows. -/
def ingest_main (fs : DataFiles) (db : Store) : Except String Unit × Store :=
  if fs.dirExists = false then (.error "Data directory not found", db)
  else
    match fs.usersFile with
    | none => (.error "No such file or directory: users.csv", emptyStore)
    | some us =>
      match fs.productsFile with
      | none => (.error "No such file or directory: products.csv", emptyStore)
      | some ps =>
        match fs.ordersFile with
        | none => (.error "No such file or directory: orders.csv", emptyStore)
        | some os =>
          match fs.orderItemsFile with
          | none => (.error "No such file or directory: order_items.csv", emptyStore)
          | some its =>
            match fs.paymentsFile with
            | none => (.error "No such file or directory: payments.csv", emptyStore)
            | some pays =>
              (.ok (), { users := us, products := ps, orders := os,
                         order_items := its, payments := pays })

/-- Does the export directory exist while some expected entity file is
missing?  This is exactly the situation in which the loader dies after the
committed deletes. -/
def someFileMissing (fs : DataFiles) : Prop :=
  fs.usersFile = none ∨ fs.productsFile = none ∨ fs.ordersFile = none ∨
    fs.orderItemsFile = none ∨ fs.paymentsFile = none

instance (fs : DataFiles) : Decidable (someFileMissing fs) := by
  unfold someFileMissing
  infer_instance

/-! ## run_queries.py -/

/-- Python `str.ljust`: pad on the right with spaces up to the width (no
change when the string is already at least that wide). -/
def ljust (s : String) (w : Nat) : String :=
  s ++ String.mk (List.replicate (w - s.length) ' ')

/-- The width-update pass of `format_table` for one row: for each cell,
`widths[idx] = max(widths[idx], len(col))`.  A row with more cells than
there are widths raises `IndexError` on the assignment. -/
def updateWidths : List Nat → List String → Except String (List Nat)
  | ws, [] => .ok ws
  | [], _ :: _ => .error "list assignment index out of range"
  | w :: ws, c :: cs =>
    match updateWidths ws cs with
    | .error e => .error e
    | .ok ws2 => .ok (max w c.length :: ws2)

/-- The fold of the width-update pass over all rows, seeded with the header
lengths. -/
def computeWidths : List Nat → List (List String) → Except String (List Nat)
  | ws, [] => .ok ws
  | ws, r :: rs =>
    match updateWidths ws r with
    | .error e => .error e
    | .ok ws2 => computeWidths ws2 rs

/-- The cell formatting of `fmt_row`: walk the row against the widths,
left-justifying each cell to its column width.  In the source a cell whose
index has no width would raise `IndexError`; that branch is unreachable
because every row already passed the width-update pass. -/
def fmtCells : List Nat → List String → List String
  | _, [] => []
  | [], _ :: _ => []
  | w :: ws, c :: cs => ljust c w :: fmtCells ws cs

/-- `fmt_row` of `format_table`: the padded cells joined by a
three-character separator. -/
def fmtRow (ws : List Nat) (row : List String) : String :=
  String.intercalate " | " (fmtCells ws row)

/-- The divider line of `format_table`: one run of dashes per column,
joined by `-+-`. -/
def dividerOf (ws : List Nat) : String :=
  String.intercalate "-+-" (ws.map fun w => String.mk (List.replicate w '-'))

/-- `format_table(headers, rows)` of `run_queries.py` over already
stringified cells: compute the column widths, then emit the header line,
the divider and one line per row, joined by newlines. -/
def format_table (headers : List String) (rows : List (List String)) : Except String String :=
  match computeWidths (headers.map String.length) rows with
  | .error e => .error e
  | .ok ws =>
    .ok (String.intercalate "\n"
      (fmtRow ws headers :: dividerOf ws :: rows.map (fmtRow ws)))

/-- The report column headers of `main()` in `run_queries.py`. -/
def reportHeaders : List String :=
  ["user_id", "name", "order_id", "product_name", "quantity", "unit_price",
   "total_amount", "payment_status", "payment_method"]

/-- The message printed when the report query returns no rows. -/
def noDataMessage : String :=
  "No data found. Verify the database has been populated."

/-- The printing stage of `main()` in `run_queries.py`, as a function of the
fetched (and stringified) report rows: the explicit no-data message when the
query returned nothing, otherwise the formatted table. -/
def report_main (rows : List (List String)) : Except String String :=
  if rows.isEmpty then .ok noDataMessage
  else format_table reportHeaders rows

/-! ## Rendering as the specification words it

These definitions restate the claimed table layout in the claim's own
column-wise terms, to be compared with `format_table` above. -/

/-- Column width as the claim words it: the maximum of the header's length
and of the lengths of all cells present in that column. -/
def specColWidth (headers : List String) (rows : List (List String)) (i : Nat) : Nat :=
  max (headers.getD i "").length
    (((rows.filterMap fun r => r.get? i).map String.length).foldr max 0)

/-- The claimed width of every column, one per header. -/
def specWidths (headers : List String) (rows : List (List String)) : List Nat :=
  (List.range headers.length).map (specColWidth headers rows)

/-- The claimed rendering: every cell left-justified to its column width,
columns separated by a bar with spaces, a dash divider joined by `-+-`
after the header line. -/
def specRender (headers : List String) (rows : List (List String)) : String :=
  String.intercalate "\n"
    (String.intercalate " | " (List.zipWith ljust headers (specWidths headers rows))
      :: String.intercalate "-+-"
          ((specWidths headers rows).map fun w => String.mk (List.replicate w '-'))
      :: rows.map fun r => String.intercalate " | " (List.zipWith ljust r (specWidths headers rows)))

/-! ## Derived notions used by the claims -/

/-- The order items recorded against one order id. -/
def itemsOf (items : List OrderItem) (oid : Nat) : List OrderItem :=
  items.filter fun it => it.order_id == oid

/-- One item's monetary contribution as the claim words it: unit price
times quantity, rounded to two decimals half-up. -/
def itemContrib (it : OrderItem) : ℚ :=
  money (it.unit_price * (it.quantity : ℚ))

/-- The claimed order total: the per-item contributions summed and the sum
rounded to two decimals half-up. -/
def claimedTotal (items : List OrderItem) (oid : Nat) : ℚ :=
  money (((itemsOf items oid).map itemContrib).sum)

/-- Equality of embedded run results is decidable componentwise, so a
concrete run can be checked by evaluation. -/
instance {ε α : Type} [DecidableEq ε] [DecidableEq α] : DecidableEq (Except ε α) := fun a b =>
  match a, b with
  | .error e1, .error e2 =>
    if h : e1 = e2 then .isTrue (by rw [h]) else
      .isFalse (by intro hc; cases hc; exact h rfl)
  | .error _, .ok _ => .isFalse (by intro hc; cases hc)
  | .ok _, .error _ => .isFalse (by intro hc; cases hc)
  | .ok a1, .ok a2 =>
    if h : a1 = a2 then .isTrue (by rw [h]) else
      .isFalse (by intro hc; cases hc; exact h rfl)

/-! ## Concrete instances used to exercise the generator claims -/

/-- The all-zeros draw stream. -/
def gW : RNG := fun _ => 0

/-- A constant raw price draw standing for `random.uniform(20, 1200)`. -/
def pdW : Nat → ℚ := fun _ => 100

/-- A concrete generation day: midnight of day 121 of the epoch. -/
def tW : Nat := 121 * 86400

/-- The user list `generate_users` produces from `gW` with count 1 (one
user: Ava Thompson). -/
def usersW : List User :=
  (generate_users gW tW 1).toOption.getD []

/-- The product list `generate_products` produces from `gW`, `pdW` with
count 1 (one product: an Aurora Laptop priced 100.00). -/
def productsW : List Product :=
  (generate_products gW pdW 1).toOption.getD []

/-- The single-order dataset `generate_orders` produces over `usersW` and
`productsW` from the all-zeros stream. -/
def resW : List Order × List OrderItem × List Payment :=
  (generate_orders gW usersW productsW tW 1).toOption.getD ([], [], [])

/-- A draw stream that places the first order at 23:00 of its day (draw
82800 seconds into the date window) and draws the maximal 48 payment
hours, pushing `paid_at` 71 hours past the recorded order date. -/
def gC7 : RNG := fun i => if i = 1 then 82800 else if i = 7 then 47 else 0

/-- The single-order dataset `generate_orders` produces over `usersW` and
`productsW` from the `gC7` stream. -/
def resC7 : List Order × List OrderItem × List Payment :=
  (generate_orders gC7 usersW productsW tW 1).toOption.getD ([], [], [])

/-! ## Concrete instances used to exercise the loader claims -/

/-- A store holding one prior user row, to observe what a failed load does
to existing contents. -/
def dbOneRow : Store :=
  { users := [["1", "Ava Chen", "ava.chen1@example.com", "555-200-1000", "2025-01-01"]],
    products := [], orders := [], order_items := [], payments := [] }

/-- An export state whose directory exists but whose five entity files are
all absent. -/
def fsFilesMissing : DataFiles :=
  { dirExists := true, usersFile := none, productsFile := none,
    ordersFile := none, orderItemsFile := none, paymentsFile := none }

/-- An export state whose directory itself is absent. -/
def fsNoDir : DataFiles :=
  { dirExists := false, usersFile := none, productsFile := none,
    ordersFile := none, orderItemsFile := none, paymentsFile := none }

/-! ## Arithmetic facts about `money` -/

theorem roundHalfUp_intCast (n : ℤ) : roundHalfUp (n : ℚ) = n := by
  unfold roundHalfUp
  have hhalf : ⌊(1 : ℚ) / 2⌋ = 0 := by norm_num
  have h1 : ⌊(n : ℚ) + 1 / 2⌋ = n := by rw [Int.floor_int_add, hhalf, add_zero]
  have h2 : ⌊-(n : ℚ) + 1 / 2⌋ = -n := by
    rw [show -(n : ℚ) = ((-n : ℤ) : ℚ) by push_cast; ring, Int.floor_int_add, hhalf, add_zero]
  split <;> omega

theorem money_of_is2dp {q : ℚ} (h : Is2dp q) : money q = q := by
  obtain ⟨n, rfl⟩ := h
  unfold money
  rw [show (100 : ℚ) * ((n : ℚ) / 100) = (n : ℚ) by ring, roundHalfUp_intCast]

theorem is2dp_money (q : ℚ) : Is2dp (money q) :=
  ⟨roundHalfUp (100 * q), rfl⟩

theorem is2dp_zero : Is2dp 0 :=
  ⟨0, by norm_num⟩

theorem is2dp_add {a b : ℚ} (ha : Is2dp a) (hb : Is2dp b) : Is2dp (a + b) := by
  obtain ⟨n, rfl⟩ := ha
  obtain ⟨m, rfl⟩ := hb
  exact ⟨n + m, by push_cast; ring⟩

theorem is2dp_mul_nat {a : ℚ} (ha : Is2dp a) (k : Nat) : Is2dp (a * (k : ℚ)) := by
  obtain ⟨n, rfl⟩ := ha
  exact ⟨n * (k : ℤ), by push_cast; ring⟩

/-! ## Facts about the sampling loop -/

theorem select_perm_concat (A : List Product) (b : Product) (j : Nat)
    (hj : j < (A ++ [b]).length) :
    List.Perm
      ((A ++ [b]).getD j default :: (((A ++ [b]).set j b).dropLast))
      (A ++ [b]) := by
  rcases Nat.lt_or_ge j A.length with hjA | hjA
  · -- the selected slot lies inside the retained prefix
    have hget : (A ++ [b]).getD j default = A[j] := by
      rw [List.getD_eq_getElem _ default hj, List.getElem_append_left hjA]
    have hset : (A ++ [b]).set j b = A.set j b ++ [b] :=
      List.set_append_left _ _ hjA
    rw [hget, hset, List.dropLast_concat]
    have hA : A.take j ++ A[j] :: A.drop (j + 1) = A := by
      rw [← List.drop_eq_getElem_cons hjA, List.take_append_drop]
    rw [List.set_eq_take_cons_drop _ hjA]
    calc
      A[j] :: (A.take j ++ b :: A.drop (j + 1)) ~
          A.take j ++ A[j] :: (b :: A.drop (j + 1)) := List.perm_middle.symm
      _ ~ A.take j ++ A[j] :: (A.drop (j + 1) ++ [b]) :=
          List.Perm.append_left _
            (List.Perm.cons _ (List.perm_append_singleton _ _).symm)
      _ = (A.take j ++ A[j] :: A.drop (j + 1)) ++ [b] := by
          rw [List.append_assoc, List.cons_append]
      _ = A ++ [b] := by rw [hA]
  · -- the selected slot is the final one: the overwrite is the identity
    have hj' : j = A.length := by
      have := hj
      simp only [List.length_append, List.length_cons, List.length_nil] at this
      omega
    subst hj'
    have hget : (A ++ [b]).getD A.length default = b := by
      rw [List.getD_eq_getElem _ default hj]
      exact List.getElem_concat_length _ _ _ rfl _
    have hset : (A ++ [b]).set A.length b = A ++ [b] := by
      rw [List.set_append_right _ _ (Nat.le_refl _)]
      simp
    rw [hget, hset, List.dropLast_concat]
    exact (List.perm_append_singleton _ _).symm

theorem select_perm (pool : List Product) (j : Nat) (hj : j < pool.length)
    (hne : pool ≠ []) :
    List.Perm
      (pool.getD j default :: ((pool.set j (pool.getLastD default)).dropLast))
      pool := by
  have hb : pool.getLastD default = pool.getLast hne := by
    rw [List.getLastD_eq_getLast?, List.getLast?_eq_getLast pool hne]
    rfl
  have hdecomp : pool.dropLast ++ [pool.getLast hne] = pool :=
    List.dropLast_concat_getLast hne
  rw [hb]
  calc
    pool.getD j default :: ((pool.set j (pool.getLast hne)).dropLast) =
        (pool.dropLast ++ [pool.getLast hne]).getD j default ::
          (((pool.dropLast ++ [pool.getLast hne]).set j (pool.getLast hne)).dropLast) := by
        rw [hdecomp]
    _ ~ pool.dropLast ++ [pool.getLast hne] :=
        select_perm_concat _ _ _ (by rw [hdecomp]; exact hj)
    _ = pool := hdecomp

theorem sampleLoop_length (g : RNG) :
    ∀ (k : Nat) (pool : List Product) (idx : Nat),
      (sampleLoop g k pool idx).1.length = k := by
  intro k
  induction k with
  | zero => intro pool idx; rfl
  | succ k ih =>
    intro pool idx
    simp only [sampleLoop, List.length_cons]
    rw [ih]

theorem sampleLoop_subperm (g : RNG) :
    ∀ (k : Nat) (pool : List Product) (idx : Nat), k ≤ pool.length →
      List.Subperm (sampleLoop g k pool idx).1 pool := by
  intro k
  induction k with
  | zero => intro pool idx _; exact List.nil_subperm
  | succ k ih =>
    intro pool idx hk
    have hpos : 0 < pool.length := Nat.lt_of_lt_of_le (Nat.succ_pos k) hk
    have hne : pool ≠ [] := List.ne_nil_of_length_pos hpos
    have hj : g idx % pool.length < pool.length := Nat.mod_lt _ hpos
    have hlen2 : ((pool.set (g idx % pool.length) (pool.getLastD default)).dropLast).length =
        pool.length - 1 := by
      rw [List.length_dropLast, List.length_set]
    have hk2 : k ≤ ((pool.set (g idx % pool.length) (pool.getLastD default)).dropLast).length := by
      omega
    obtain ⟨l, hperm, hsub⟩ := ih _ (idx + 1) hk2
    simp only [sampleLoop]
    refine List.Subperm.trans ?_ (select_perm pool _ hj hne).subperm
    exact ⟨_ :: l, hperm.cons _, hsub.cons₂ _⟩

theorem sample_ok (g : RNG) (population : List Product) (k idx : Nat)
    (res : List Product × Nat) (h : sample g population k idx = .ok res) :
    k ≤ population.length ∧ res.1.length = k ∧ List.Subperm res.1 population := by
  unfold sample at h
  split at h
  · cases h
    exact ⟨by assumption, sampleLoop_length g k population idx,
      sampleLoop_subperm g k population idx (by assumption)⟩
  · cases h

theorem itemLoop_spec (g : RNG) (oid : Nat) :
    ∀ (sampled : List Product) (oiid idx : Nat),
      (∀ it ∈ (itemLoop g oid sampled oiid idx).1, it.order_id = oid) ∧
      (itemLoop g oid sampled oiid idx).1.map OrderItem.product_id =
        sampled.map Product.product_id ∧
      (itemLoop g oid sampled oiid idx).1.length = sampled.length ∧
      ((∀ p ∈ sampled, Is2dp p.price) →
        ((itemLoop g oid sampled oiid idx).1.map itemContrib).sum =
          (itemLoop g oid sampled oiid idx).2.1) := by
  intro sampled
  induction sampled with
  | nil =>
    intro oiid idx
    exact ⟨fun it h => absurd h (List.not_mem_nil it), rfl, rfl, fun _ => rfl⟩
  | cons p rest ih =>
    intro oiid idx
    obtain ⟨iha, ihb, ihc, ihd⟩ := ih (oiid + 1) (idx + 1)
    refine ⟨?_, ?_, ?_, ?_⟩
    · intro it hit
      simp only [itemLoop, List.mem_cons] at hit
      rcases hit with rfl | hit
      · rfl
      · exact iha it hit
    · simp only [itemLoop, List.map_cons]
      rw [ihb]
    · simp only [itemLoop, List.length_cons, List.length_map] at ihc ⊢
      rw [ihc]
    · intro hprices
      have hp : Is2dp p.price := hprices p (List.mem_cons_self p rest)
      have hrest : ∀ q ∈ rest, Is2dp q.price := fun q hq =>
        hprices q (List.mem_cons_of_mem p hq)
      simp only [itemLoop, List.map_cons, List.sum_cons]
      rw [ihd hrest]
      unfold itemContrib
      simp only
      rw [money_of_is2dp hp, money_of_is2dp (is2dp_mul_nat hp _)]

theorem dayStart_le (t : Nat) : dayStart t ≤ t :=
  Nat.sub_le _ _

theorem lt_dayStart_add (t : Nat) : t < dayStart t + 86400 := by
  unfold dayStart
  have := Nat.mod_lt t (show 0 < 86400 by norm_num)
  omega

theorem genOne_spec (g : RNG) (users : List User) (products : List Product) (today : Nat)
    (oid pid oiid idx : Nat) (o : Order) (its1 : List OrderItem) (pay : Payment)
    (oiid2 idx2 : Nat)
    (h : genOne g users products today oid pid oiid idx = .ok (o, its1, pay, oiid2, idx2)) :
    o.order_id = oid ∧
    pay.payment_id = pid ∧
    pay.order_id = oid ∧
    pay.amount = o.total_amount ∧
    o.order_date + 3600 ≤ pay.paid_at ∧
    pay.paid_at < o.order_date + 259200 ∧
    (∀ it ∈ its1, it.order_id = oid) ∧
    1 ≤ its1.length ∧ its1.length ≤ 4 ∧
    (products.length = 1 → its1.length = 1) ∧
    ((products.map Product.product_id).Nodup → (its1.map OrderItem.product_id).Nodup) ∧
    ((∀ p ∈ products, Is2dp p.price) → o.total_amount = money ((its1.map itemContrib).sum)) := by
  unfold genOne at h
  split at h
  · simp at h
  rename_i user hu
  split at h
  · simp at h
  rename_i k hk
  split at h
  · simp at h
  rename_i sp hs
  simp only [] at h
  split at h
  · simp at h
  rename_i method hm
  -- the selected item count respects 1 ≤ k ≤ min 4 |products|
  unfold randint at hk
  split at hk
  · simp at hk
  rename_i hmin
  have hk' : k = randintT 1 (min 4 products.length) (g (idx + 2)) := by
    cases hk
    rfl
  have hmin1 : 1 ≤ min 4 products.length := by omega
  have hkbounds : 1 ≤ k ∧ k ≤ min 4 products.length := by
    rw [hk']
    unfold randintT
    have hmod : g (idx + 2) % (min 4 products.length - 1 + 1) <
        min 4 products.length - 1 + 1 := Nat.mod_lt _ (by omega)
    omega
  obtain ⟨hsk, hslen, hssub⟩ := sample_ok g products k (idx + 3) sp hs
  obtain ⟨hia, hib, hic, hid⟩ := itemLoop_spec g oid sp.1 oiid sp.2
  cases h
  refine ⟨rfl, rfl, rfl, rfl, ?_, ?_, hia, ?_, ?_, ?_, ?_, ?_⟩
  · -- recorded date plus one hour is at most paid_at
    have h1 : dayStart (random_date (today - 120 * 86400) (today - 86400) (g (idx + 1))) ≤
        random_date (today - 120 * 86400) (today - 86400) (g (idx + 1)) := dayStart_le _
    have h2 : 1 ≤ randintT 1 48 (g ((itemLoop g oid sp.1 oiid sp.2).2.2.2 + 2)) := by
      unfold randintT
      omega
    simp only
    omega
  · -- paid_at is under 72 hours past the recorded date
    have h1 : random_date (today - 120 * 86400) (today - 86400) (g (idx + 1)) <
        dayStart (random_date (today - 120 * 86400) (today - 86400) (g (idx + 1))) + 86400 :=
      lt_dayStart_add _
    have h2 : randintT 1 48 (g ((itemLoop g oid sp.1 oiid sp.2).2.2.2 + 2)) ≤ 48 := by
      unfold randintT
      have hmod : g ((itemLoop g oid sp.1 oiid sp.2).2.2.2 + 2) % (48 - 1 + 1) <
          48 - 1 + 1 := Nat.mod_lt _ (by omega)
      omega
    simp only
    omega
  · rw [hic, hslen]
    exact hkbounds.1
  · rw [hic, hslen]
    omega
  · intro hp1
    rw [hic, hslen, hk', hp1]
    simp [randintT]
    omega
  · intro hnd
    obtain ⟨l, hperm, hsub⟩ := hssub
    have hmapsub : List.Sublist (l.map Product.product_id) (products.map Product.product_id) :=
      hsub.map _
    have hlnd : (l.map Product.product_id).Nodup := hmapsub.nodup hnd
    have : (sp.1.map Product.product_id).Nodup := (hperm.map _).nodup hlnd
    rw [hib]
    exact this
  · intro hprices
    have hsp : ∀ p ∈ sp.1, Is2dp p.price := fun p hp =>
      hprices p (hssub.subset hp)
    rw [hid hsp]

theorem itemsOf_append (a b : List OrderItem) (x : Nat) :
    itemsOf (a ++ b) x = itemsOf a x ++ itemsOf b x := by
  unfold itemsOf
  exact List.filter_append _ _

theorem itemsOf_all (a : List OrderItem) (x : Nat) (h : ∀ it ∈ a, it.order_id = x) :
    itemsOf a x = a := by
  unfold itemsOf
  rw [List.filter_eq_self]
  intro it hit
  simp [h it hit]

theorem itemsOf_none (a : List OrderItem) (x : Nat) (h : ∀ it ∈ a, it.order_id ≠ x) :
    itemsOf a x = [] := by
  unfold itemsOf
  rw [List.filter_eq_nil_iff]
  intro it hit
  simp [h it hit]

theorem genLoop_spec (g : RNG) (users : List User) (products : List Product) (today : Nat) :
    ∀ (fuel oid oiid idx : Nat) (os : List Order) (its : List OrderItem) (pays : List Payment),
      genLoop g users products today fuel oid oid oiid idx = .ok (os, its, pays) →
      os.map Order.order_id = List.range' oid fuel ∧
      pays.map Payment.order_id = List.range' oid fuel ∧
      (∀ pay ∈ pays, pay.payment_id = pay.order_id) ∧
      (∀ it ∈ its, oid ≤ it.order_id) ∧
      (∀ o ∈ os,
        ((∀ p ∈ products, Is2dp p.price) → o.total_amount = claimedTotal its o.order_id) ∧
        1 ≤ (itemsOf its o.order_id).length ∧
        (itemsOf its o.order_id).length ≤ 4 ∧
        (products.length = 1 → (itemsOf its o.order_id).length = 1) ∧
        ((products.map Product.product_id).Nodup →
          ((itemsOf its o.order_id).map OrderItem.product_id).Nodup)) ∧
      (∀ o ∈ os, ∀ pay ∈ pays, pay.order_id = o.order_id →
        pay.amount = o.total_amount ∧
        o.order_date + 3600 ≤ pay.paid_at ∧
        pay.paid_at < o.order_date + 259200) := by
  intro fuel
  induction fuel with
  | zero =>
    intro oid oiid idx os its pays h
    unfold genLoop at h
    cases h
    refine ⟨rfl, rfl, ?_, ?_, ?_, ?_⟩
    · intro pay hp; cases hp
    · intro it hit; cases hit
    · intro o ho; cases ho
    · intro o ho; cases ho
  | succ fuel ih =>
    intro oid oiid idx os its pays h
    unfold genLoop at h
    split at h
    · simp at h
    rename_i step hstep
    split at h
    · simp at h
    rename_i rest hrec
    cases h
    obtain ⟨ho_id, hpay_pid, hpay_oid, hpay_amt, hpaid_lo, hpaid_hi, hits_oid,
        hlen1, hlen4, hlenp1, hnodup, htotal⟩ :=
      genOne_spec g users products today oid oid oiid idx step.1 step.2.1 step.2.2.1
        step.2.2.2.1 step.2.2.2.2 hstep
    obtain ⟨ihos, ihpays, ihpid, ihits, ihper, ihpair⟩ :=
      ih (oid + 1) step.2.2.2.1 step.2.2.2.2 rest.1 rest.2.1 rest.2.2 hrec
    have hmemo : ∀ o' ∈ rest.1, oid + 1 ≤ o'.order_id := by
      intro o' ho'
      have : o'.order_id ∈ List.range' (oid + 1) fuel := by
        rw [← ihos]
        exact List.mem_map_of_mem _ ho'
      exact (List.mem_range'_1.mp this).1
    have hmemp : ∀ pay' ∈ rest.2.2, oid + 1 ≤ pay'.order_id := by
      intro pay' hp'
      have : pay'.order_id ∈ List.range' (oid + 1) fuel := by
        rw [← ihpays]
        exact List.mem_map_of_mem _ hp'
      exact (List.mem_range'_1.mp this).1
    have hhead_items : itemsOf (step.2.1 ++ rest.2.1) oid = step.2.1 := by
      rw [itemsOf_append, itemsOf_all _ _ hits_oid, itemsOf_none]
      · rw [List.append_nil]
      · intro it hit
        have := ihits it hit
        omega
    have htail_items : ∀ x, oid + 1 ≤ x →
        itemsOf (step.2.1 ++ rest.2.1) x = itemsOf rest.2.1 x := by
      intro x hx
      rw [itemsOf_append, itemsOf_none step.2.1 x]
      · rw [List.nil_append]
      · intro it hit
        have := hits_oid it hit
        omega
    refine ⟨?_, ?_, ?_, ?_, ?_, ?_⟩
    · simp only [List.map_cons, ihos, ho_id, List.range'_succ]
    · simp only [List.map_cons, ihpays, hpay_oid, List.range'_succ]
    · intro pay hp
      rcases hp with _ | hp
      · rw [hpay_pid, hpay_oid]
      · exact ihpid _ (by assumption)
    · intro it hit
      rcases List.mem_append.mp hit with hit1 | hit2
      · rw [hits_oid it hit1]
      · have := ihits it hit2
        omega
    · intro o ho
      rcases ho with _ | ho
      · -- the head order, all facts from the head step
        rw [ho_id, hhead_items]
        refine ⟨?_, hlen1, hlen4, hlenp1, hnodup⟩
        intro hp
        unfold claimedTotal
        rw [hhead_items]
        exact htotal hp
      · -- a tail order: its id exceeds oid, so the head items do not interfere
        rename_i ho
        have hge := hmemo o ho
        rw [htail_items _ hge]
        obtain ⟨t1, t2, t3, t4, t5⟩ := ihper o ho
        refine ⟨?_, t2, t3, t4, t5⟩
        intro hp
        unfold claimedTotal
        rw [htail_items _ hge]
        exact t1 hp
    · intro o ho pay hp hpo
      rcases ho with _ | ho
      · rcases hp with _ | hp
        · exact ⟨hpay_amt, hpaid_lo, hpaid_hi⟩
        · -- a tail payment cannot reference the head order
          rename_i hp
          have := hmemp pay hp
          rw [ho_id] at hpo
          omega
      · rcases hp with _ | hp
        · -- the head payment cannot reference a tail order
          rename_i ho
          have := hmemo o ho
          rw [hpay_oid] at hpo
          omega
        · rename_i ho hp
          exact ihpair o ho pay hp hpo

theorem genProductsLoop_spec (g : RNG) (priceDraw : Nat → ℚ) :
    ∀ (fuel pid idx : Nat) (ps : List Product),
      genProductsLoop g priceDraw fuel pid idx = .ok ps →
      ps.map Product.product_id = List.range' pid fuel ∧
      ps.length = fuel ∧
      (∀ p ∈ ps, Is2dp p.price) := by
  intro fuel
  induction fuel with
  | zero =>
    intro pid idx ps h
    unfold genProductsLoop at h
    cases h
    exact ⟨rfl, rfl, fun p hp => absurd hp (List.not_mem_nil p)⟩
  | succ fuel ih =>
    intro pid idx ps h
    unfold genProductsLoop at h
    split at h
    · simp at h
    split at h
    · simp at h
    split at h
    · simp at h
    split at h
    · simp at h
    rename_i rest hrec
    cases h
    obtain ⟨iha, ihb, ihc⟩ := ih (pid + 1) (idx + 5) rest hrec
    refine ⟨?_, ?_, ?_⟩
    · simp only [List.map_cons, iha, List.range'_succ]
    · simp only [List.length_cons, ihb]
    · intro p hp
      rcases hp with _ | hp
      · exact is2dp_money _
      · exact ihc _ (by assumption)

theorem generate_products_spec (g : RNG) (priceDraw : Nat → ℚ) (count : Nat)
    (ps : List Product) (h : generate_products g priceDraw count = .ok ps) :
    ps.map Product.product_id = List.range' 1 count ∧
    ps.length = count ∧
    (∀ p ∈ ps, Is2dp p.price) :=
  genProductsLoop_spec g priceDraw count 1 0 ps h

theorem generate_products_nodup (g : RNG) (priceDraw : Nat → ℚ) (count : Nat)
    (ps : List Product) (h : generate_products g priceDraw count = .ok ps) :
    (ps.map Product.product_id).Nodup := by
  rw [(generate_products_spec g priceDraw count ps h).1]
  exact List.nodup_range' 1 count

theorem genUsersLoop_length (g : RNG) (today : Nat) :
    ∀ (fuel uid idx : Nat) (us : List User),
      genUsersLoop g today fuel uid idx = .ok us → us.length = fuel := by
  intro fuel
  induction fuel with
  | zero =>
    intro uid idx us h
    unfold genUsersLoop at h
    cases h
    rfl
  | succ fuel ih =>
    intro uid idx us h
    unfold genUsersLoop at h
    split at h
    · simp at h
    split at h
    · simp at h
    split at h
    · simp at h
    rename_i rest hrec
    cases h
    simp only [List.length_cons, ih (uid + 1) (idx + 5) rest hrec]

theorem genUsersLoop_ok (g : RNG) (today : Nat) :
    ∀ (fuel uid idx : Nat), ∃ us, genUsersLoop g today fuel uid idx = .ok us := by
  intro fuel
  induction fuel with
  | zero => intro uid idx; exact ⟨[], rfl⟩
  | succ fuel ih =>
    intro uid idx
    obtain ⟨us, hus⟩ := ih (uid + 1) (idx + 5)
    simp only [genUsersLoop, choice, firstNames, lastNames, hus]
    exact ⟨_, rfl⟩

theorem genOne_no_products (g : RNG) (u : User) (us : List User)
    (today oid pid oiid idx : Nat) :
    genOne g (u :: us) [] today oid pid oiid idx = .error "empty range for randrange" := rfl

theorem genLoop_no_products (g : RNG) (u : User) (us : List User) (today : Nat)
    (fuel oid pid oiid idx : Nat) :
    genLoop g (u :: us) [] today (fuel + 1) oid pid oiid idx =
      .error "empty range for randrange" := by
  unfold genLoop
  rw [genOne_no_products]

/-! ## Claims about the generator -/

/-- C1: in every generated dataset, each order's `total_amount` equals the
two-decimal round-half-up rounding of the sum, over the order items carrying
that order id, of `unit_price * quantity` with each contribution itself
rounded to two decimals half-up before summation (`claimedTotal`). -/
theorem C1_order_total_is_rounded_item_sum
    (gU gP gO : RNG) (priceDraw : Nat → ℚ) (todayU todayO uc pc oc : Nat)
    (users : List User) (products : List Product)
    (orders : List Order) (items : List OrderItem) (payments : List Payment)
    (hu : generate_users gU todayU uc = .ok users)
    (hp : generate_products gP priceDraw pc = .ok products)
    (ho : generate_orders gO users products todayO oc = .ok (orders, items, payments)) :
    ∀ o ∈ orders, o.total_amount = claimedTotal items o.order_id := by
  have hprices := (generate_products_spec gP priceDraw pc products hp).2.2
  obtain ⟨-, -, -, -, hper, -⟩ :=
    genLoop_spec gO users products todayO oc 1 1 0 orders items payments ho
  exact fun o hoo => (hper o hoo).1 hprices

/-- C4: in every generated dataset, each order is referenced by exactly one
payment row, and every payment referencing it carries exactly the order's
`total_amount` (the generator assigns the same decimal value to both). -/
theorem C4_one_payment_per_order_with_equal_amount
    (gU gP gO : RNG) (priceDraw : Nat → ℚ) (todayU todayO uc pc oc : Nat)
    (users : List User) (products : List Product)
    (orders : List Order) (items : List OrderItem) (payments : List Payment)
    (hu : generate_users gU todayU uc = .ok users)
    (hp : generate_products gP priceDraw pc = .ok products)
    (ho : generate_orders gO users products todayO oc = .ok (orders, items, payments)) :
    ∀ o ∈ orders,
      (payments.filter fun pay => pay.order_id == o.order_id).length = 1 ∧
      (∀ pay ∈ payments, pay.order_id = o.order_id → pay.amount = o.total_amount) := by
  obtain ⟨hos, hpays, -, -, -, hpair⟩ :=
    genLoop_spec gO users products todayO oc 1 1 0 orders items payments ho
  intro o hoo
  constructor
  · have hmem : o.order_id ∈ List.range' 1 oc := by
      rw [← hos]
      exact List.mem_map_of_mem _ hoo
    calc (payments.filter fun pay => pay.order_id == o.order_id).length
        = List.countP (fun pay => pay.order_id == o.order_id) payments :=
          (List.countP_eq_length_filter _ _).symm
      _ = List.countP (fun x => x == o.order_id) (payments.map Payment.order_id) := by
          rw [List.countP_map]
          rfl
      _ = List.count o.order_id (List.range' 1 oc) := by
          rw [hpays, List.count_eq_countP]
      _ = 1 := List.count_eq_one_of_mem (List.nodup_range' 1 oc) hmem
  · intro pay hpay hpo
    exact (hpair o hoo pay hpay hpo).1

/-- C6: in every generated dataset, each order carries between one and four
order items whose product ids are pairwise distinct, and a one-product
catalog forces exactly one item per order. -/
theorem C6_items_per_order_bounds_and_distinct
    (gU gP gO : RNG) (priceDraw : Nat → ℚ) (todayU todayO uc pc oc : Nat)
    (users : List User) (products : List Product)
    (orders : List Order) (items : List OrderItem) (payments : List Payment)
    (hu : generate_users gU todayU uc = .ok users)
    (hp : generate_products gP priceDraw pc = .ok products)
    (ho : generate_orders gO users products todayO oc = .ok (orders, items, payments)) :
    ∀ o ∈ orders,
      1 ≤ (itemsOf items o.order_id).length ∧
      (itemsOf items o.order_id).length ≤ 4 ∧
      ((itemsOf items o.order_id).map OrderItem.product_id).Nodup ∧
      (pc = 1 → (itemsOf items o.order_id).length = 1) := by
  have hnd := generate_products_nodup gP priceDraw pc products hp
  have hplen := (generate_products_spec gP priceDraw pc products hp).2.1
  obtain ⟨-, -, -, -, hper, -⟩ :=
    genLoop_spec gO users products todayO oc 1 1 0 orders items payments ho
  intro o hoo
  obtain ⟨-, t2, t3, t4, t5⟩ := hper o hoo
  exact ⟨t2, t3, t5 hnd, fun hpc => t4 (by rw [hplen, hpc])⟩

/-- C7 (amended): in every generated dataset, a payment's `paid_at` is
strictly later than the recorded (date-truncated) `order_date` of its
order, by at least one hour and by strictly less than seventy-two hours.
The exact gap is the order's internal timestamp's time of day plus the
drawn 1..48 hours, so it can exceed 48 hours past the recorded date. -/
theorem C7_paid_at_after_recorded_date
    (gU gP gO : RNG) (priceDraw : Nat → ℚ) (todayU todayO uc pc oc : Nat)
    (users : List User) (products : List Product)
    (orders : List Order) (items : List OrderItem) (payments : List Payment)
    (hu : generate_users gU todayU uc = .ok users)
    (hp : generate_products gP priceDraw pc = .ok products)
    (ho : generate_orders gO users products todayO oc = .ok (orders, items, payments)) :
    ∀ o ∈ orders, ∀ pay ∈ payments, pay.order_id = o.order_id →
      o.order_date < pay.paid_at ∧
      o.order_date + 3600 ≤ pay.paid_at ∧
      pay.paid_at < o.order_date + 72 * 3600 := by
  obtain ⟨-, -, -, -, -, hpair⟩ :=
    genLoop_spec gO users products todayO oc 1 1 0 orders items payments ho
  intro o hoo pay hpay hpo
  obtain ⟨-, hlo, hhi⟩ := hpair o hoo pay hpay hpo
  refine ⟨by omega, hlo, by omega⟩

/-- C10: in every generated dataset, the payment id counter advances in
lockstep with the order id counter, so each payment's `payment_id` equals
the `order_id` it references and the payment ids are exactly `1..K`. -/
theorem C10_payment_ids_match_order_ids
    (gU gP gO : RNG) (priceDraw : Nat → ℚ) (todayU todayO uc pc oc : Nat)
    (users : List User) (products : List Product)
    (orders : List Order) (items : List OrderItem) (payments : List Payment)
    (hu : generate_users gU todayU uc = .ok users)
    (hp : generate_products gP priceDraw pc = .ok products)
    (ho : generate_orders gO users products todayO oc = .ok (orders, items, payments)) :
    (∀ pay ∈ payments, pay.payment_id = pay.order_id) ∧
    payments.map Payment.payment_id = List.range' 1 oc := by
  obtain ⟨-, hpays, hpid, -, -, -⟩ :=
    genLoop_spec gO users products todayO oc 1 1 0 orders items payments ho
  refine ⟨hpid, ?_⟩
  rw [List.map_congr_left hpid, hpays]

/-- C5: requesting a dataset with an empty product catalog makes the order
item count draw `randint(1, min(4, 0))` fail on its empty range, so the
whole generation stage errors out before a single output row or file
exists (`main` writes files only after all three generators return). -/
theorem C5_no_products_fails_before_output
    (gU gP gO : RNG) (priceDraw : Nat → ℚ) (today uc oc : Nat)
    (huc : 1 ≤ uc) (hoc : 1 ≤ oc) :
    generateDataMain gU gP gO priceDraw today uc 0 oc =
      .error "empty range for randrange" := by
  obtain ⟨users, hus⟩ := genUsersLoop_ok gU today uc 1 0
  have hlen := genUsersLoop_length gU today uc 1 0 users hus
  cases users with
  | nil => simp at hlen; omega
  | cons u us =>
    cases oc with
    | zero => omega
    | succ n =>
      simp only [generateDataMain, generate_users, hus,
        show generate_products gP priceDraw 0 = .ok ([] : List Product) from rfl,
        generate_orders, genLoop_no_products]

/-! ## Claims about the loader -/

/-- C3 counterexample: with the export directory present but the entity
files missing, the loader errors out, yet the committed store is the
emptied one, not the original contents — the claim's "no rows deleted" is
violated on this input. -/
theorem C3_counterexample :
    ingest_main fsFilesMissing dbOneRow =
      (.error "No such file or directory: users.csv", emptyStore) ∧
    emptyStore ≠ dbOneRow := by
  refine ⟨rfl, ?_⟩
  decide

/-- C3 (amended): a missing export directory aborts the load before the
store is touched, leaving it unchanged; a missing entity file under an
existing directory aborts the load with an error and commits no insert,
but the deletion of all prior rows has already been committed, leaving the
store empty rather than unchanged. -/
theorem C3_load_failure_semantics (fs : DataFiles) (db : Store) :
    (fs.dirExists = false →
      ingest_main fs db = (.error "Data directory not found", db)) ∧
    (fs.dirExists = true → someFileMissing fs →
      ∃ e, ingest_main fs db = (.error e, emptyStore)) := by
  constructor
  · intro h
    unfold ingest_main
    rw [h]
    simp
  · intro hdir hmiss
    rcases h1 : fs.usersFile with _ | us
    · exact ⟨"No such file or directory: users.csv", by simp [ingest_main, hdir, h1]⟩
    rcases h2 : fs.productsFile with _ | ps
    · exact ⟨"No such file or directory: products.csv", by simp [ingest_main, hdir, h1, h2]⟩
    rcases h3 : fs.ordersFile with _ | os
    · exact ⟨"No such file or directory: orders.csv", by simp [ingest_main, hdir, h1, h2, h3]⟩
    rcases h4 : fs.orderItemsFile with _ | its
    · exact ⟨"No such file or directory: order_items.csv",
        by simp [ingest_main, hdir, h1, h2, h3, h4]⟩
    rcases h5 : fs.paymentsFile with _ | pays
    · exact ⟨"No such file or directory: payments.csv",
        by simp [ingest_main, hdir, h1, h2, h3, h4, h5]⟩
    unfold someFileMissing at hmiss
    rcases hmiss with h | h | h | h | h <;> simp_all

theorem C3_load_failure_semantics_witness :
    ingest_main fsNoDir dbOneRow = (.error "Data directory not found", dbOneRow) ∧
    ∃ e, ingest_main fsFilesMissing dbOneRow = (.error e, emptyStore) :=
  ⟨(C3_load_failure_semantics fsNoDir dbOneRow).1 rfl,
   (C3_load_failure_semantics fsFilesMissing dbOneRow).2 rfl (Or.inl rfl)⟩

/-! ## Claims about the report stage -/

/-- C8: when the report query yields zero rows, the stage prints the
explicit no-data message, which is neither empty nor the header-only table
`format_table` would render over no rows. -/
theorem C8_no_data_message (rows : List (List String)) (h : rows = []) :
    report_main rows = .ok noDataMessage ∧
    noDataMessage ≠ "" ∧
    Except.ok noDataMessage ≠ format_table reportHeaders [] := by
  subst h
  refine ⟨rfl, by decide, ?_⟩
  intro h
  have h2 : noDataMessage = (format_table reportHeaders []).toOption.getD "" := by
    rw [← h]
    rfl
  exact absurd h2 (by decide)

theorem C8_no_data_message_witness :
    report_main [] = .ok noDataMessage ∧
    noDataMessage ≠ "" ∧
    Except.ok noDataMessage ≠ format_table reportHeaders [] :=
  C8_no_data_message [] rfl

/-! ## The width computation of `format_table` -/

theorem updateWidths_ok :
    ∀ (r : List String) (ws : List Nat), r.length ≤ ws.length →
      ∃ W, updateWidths ws r = .ok W ∧ W.length = ws.length ∧
        ∀ i : Nat, W.get? i = (ws.get? i).map fun w =>
          match r.get? i with
          | none => w
          | some c => max w c.length := by
  intro r
  induction r with
  | nil =>
    intro ws _
    refine ⟨ws, ?_, rfl, ?_⟩
    · cases ws <;> rfl
    · intro i
      cases ws.get? i <;> rfl
  | cons c cs ih =>
    intro ws hlen
    cases ws with
    | nil => simp at hlen
    | cons w ws2 =>
      have hlen2 : cs.length ≤ ws2.length := by
        simp only [List.length_cons] at hlen
        omega
      obtain ⟨W2, hW2, hlenW2, hget⟩ := ih ws2 hlen2
      refine ⟨max w c.length :: W2, ?_, ?_, ?_⟩
      · simp only [updateWidths, hW2]
      · simp only [List.length_cons, hlenW2]
      · intro i
        cases i with
        | zero => rfl
        | succ i => exact hget i

theorem computeWidths_ok :
    ∀ (rows : List (List String)) (ws : List Nat),
      (∀ r ∈ rows, r.length ≤ ws.length) →
      ∃ W, computeWidths ws rows = .ok W ∧ W.length = ws.length ∧
        ∀ i : Nat, W.get? i = (ws.get? i).map fun w =>
          max w (((rows.filterMap fun r => r.get? i).map String.length).foldr max 0) := by
  intro rows
  induction rows with
  | nil =>
    intro ws _
    refine ⟨ws, rfl, rfl, ?_⟩
    intro i
    cases ws.get? i
    · rfl
    · simp
  | cons r rs ih =>
    intro ws hlen
    have hr : r.length ≤ ws.length := hlen r (List.mem_cons_self r rs)
    obtain ⟨W1, hW1, hlen1, hget1⟩ := updateWidths_ok r ws hr
    have hrs : ∀ r2 ∈ rs, r2.length ≤ W1.length := by
      intro r2 hr2
      rw [hlen1]
      exact hlen r2 (List.mem_cons_of_mem r hr2)
    obtain ⟨W, hW, hlenW, hgetW⟩ := ih W1 hrs
    refine ⟨W, ?_, by rw [hlenW, hlen1], ?_⟩
    · simp only [computeWidths, hW1, hW]
    · intro i
      rw [hgetW i, hget1 i]
      cases hw : ws.get? i with
      | none => rfl
      | some w =>
        simp only [Option.map_some']
        congr 1
        cases hcell : r.get? i with
        | none =>
          rw [@List.filterMap_cons_none (List String) String (fun r2 => r2.get? i) r rs hcell]
        | some c =>
          rw [@List.filterMap_cons_some (List String) String (fun r2 => r2.get? i) r rs c hcell]
          simp only [List.map_cons, List.foldr_cons]
          exact Nat.max_assoc _ _ _

theorem computeWidths_eq_specWidths (headers : List String) (rows : List (List String))
    (h : ∀ r ∈ rows, r.length ≤ headers.length) :
    computeWidths (headers.map String.length) rows = .ok (specWidths headers rows) := by
  have h2 : ∀ r ∈ rows, r.length ≤ (headers.map String.length).length := by
    intro r hr
    rw [List.length_map]
    exact h r hr
  obtain ⟨W, hW, hlenW, hget⟩ := computeWidths_ok rows (headers.map String.length) h2
  rw [hW]
  congr 1
  apply List.ext_get?
  intro i
  rw [hget i, List.get?_map]
  unfold specWidths
  rw [List.get?_map]
  rcases Nat.lt_or_ge i headers.length with hi | hi
  · have hh : headers.get? i = some headers[i] := by
      rw [List.get?_eq_getElem?, List.getElem?_eq_getElem hi]
    have hrange : (List.range headers.length).get? i = some i := by
      rw [List.get?_eq_getElem?, List.getElem?_range hi]
    rw [hh, hrange]
    simp only [Option.map_some']
    congr 1
    unfold specColWidth
    rw [List.getD_eq_getElem _ _ hi]
  · have hh : headers.get? i = none := List.get?_eq_none.mpr hi
    have hrange : (List.range headers.length).get? i = none := by
      apply List.get?_eq_none.mpr
      rw [List.length_range]
      exact hi
    rw [hh, hrange]
    rfl

theorem fmtCells_eq_zipWith :
    ∀ (ws : List Nat) (row : List String), fmtCells ws row = List.zipWith ljust row ws := by
  intro ws
  induction ws with
  | nil =>
    intro row
    cases row <;> rfl
  | cons w ws2 ih =>
    intro row
    cases row with
    | nil => rfl
    | cons c cs => simp only [fmtCells, List.zipWith_cons_cons, ih]

/-! ## Claims about `format_table` -/

/-- C9 counterexample: a row with more cells than there are headers makes
the width pass of `format_table` raise `IndexError` (`widths[idx]` with
`idx` beyond the header count), so no table is rendered at all on this
input — the claim's universal fixed-width rendering fails. -/
theorem C9_counterexample :
    format_table ["h"] [["aa", "bb"]] = .error "list assignment index out of range" ∧
    ¬ ∃ s, format_table ["h"] [["aa", "bb"]] = .ok s := by
  refine ⟨rfl, ?_⟩
  rintro ⟨s, hs⟩
  rw [show format_table ["h"] [["aa", "bb"]] =
    .error "list assignment index out of range" from rfl] at hs
  cases hs

/-- C9 (amended): for every header list and every row list in which no row
has more cells than there are headers, `format_table` succeeds and renders
exactly the claimed fixed-width table: each column's width is the max of
the header length and all cell lengths in that column, cells are
left-justified to their column width and joined by a bar separator, and a
dash divider joined by `-+-` follows the header line. -/
theorem C9_format_table_fixed_width (headers : List String) (rows : List (List String))
    (h : ∀ r ∈ rows, r.length ≤ headers.length) :
    format_table headers rows = .ok (specRender headers rows) := by
  unfold format_table
  rw [computeWidths_eq_specWidths headers rows h]
  unfold specRender fmtRow dividerOf
  simp only [fmtCells_eq_zipWith]

theorem C9_format_table_fixed_width_witness :
    format_table ["user_id", "name"] [["1", "Ava Chen"], ["2", "Liam Kim"]] =
      .ok (specRender ["user_id", "name"] [["1", "Ava Chen"], ["2", "Liam Kim"]]) :=
  C9_format_table_fixed_width _ _ (by decide)

/-! ## Successful runs of the generators at the concrete inputs -/

theorem genProductsLoop_ok (g : RNG) (priceDraw : Nat → ℚ) :
    ∀ (fuel pid idx : Nat), ∃ ps, genProductsLoop g priceDraw fuel pid idx = .ok ps := by
  intro fuel
  induction fuel with
  | zero => intro pid idx; exact ⟨[], rfl⟩
  | succ fuel ih =>
    intro pid idx
    obtain ⟨ps, hps⟩ := ih (pid + 1) (idx + 5)
    simp only [genProductsLoop, choice, adjectives, nouns, categories, hps]
    exact ⟨_, rfl⟩

theorem genOne_ok (g : RNG) (u : User) (us : List User) (p : Product) (ps : List Product)
    (today oid pid oiid idx : Nat) :
    ∃ r, genOne g (u :: us) (p :: ps) today oid pid oiid idx = .ok r := by
  have hmin : ¬ (min 4 (p :: ps).length < 1) := by
    simp only [List.length_cons]
    omega
  have hk : randintT 1 (min 4 (p :: ps).length) (g (idx + 2)) ≤ (p :: ps).length := by
    unfold randintT
    have h1 : 1 ≤ min 4 (p :: ps).length := by
      simp only [List.length_cons]
      omega
    have hmod : g (idx + 2) % (min 4 (p :: ps).length - 1 + 1) <
        min 4 (p :: ps).length - 1 + 1 := Nat.mod_lt _ (by omega)
    have hle : min 4 (p :: ps).length ≤ (p :: ps).length := Nat.min_le_right _ _
    omega
  unfold genOne
  simp only [choice]
  rw [randint, if_neg hmin]
  simp only []
  rw [sample, if_pos hk]
  simp only [choice, methodList]
  exact ⟨_, rfl⟩

theorem genLoop_ok (g : RNG) (u : User) (us : List User) (p : Product) (ps : List Product)
    (today : Nat) :
    ∀ (fuel oid pid oiid idx : Nat),
      ∃ r, genLoop g (u :: us) (p :: ps) today fuel oid pid oiid idx = .ok r := by
  intro fuel
  induction fuel with
  | zero => intro oid pid oiid idx; exact ⟨([], [], []), rfl⟩
  | succ fuel ih =>
    intro oid pid oiid idx
    obtain ⟨r1, hr1⟩ := genOne_ok g u us p ps today oid pid oiid idx
    obtain ⟨r2, hr2⟩ := ih (oid + 1) (pid + 1) r1.2.2.2.1 r1.2.2.2.2
    simp only [genLoop, hr1, hr2]
    exact ⟨_, rfl⟩

theorem usersW_spec : generate_users gW tW 1 = .ok usersW := by
  obtain ⟨us, hus⟩ := genUsersLoop_ok gW tW 1 1 0
  have h2 : generate_users gW tW 1 = .ok us := hus
  rw [h2]
  unfold usersW
  rw [h2]
  rfl

theorem usersW_length : usersW.length = 1 := by
  exact genUsersLoop_length gW tW 1 1 0 usersW usersW_spec

theorem productsW_spec : generate_products gW pdW 1 = .ok productsW := by
  obtain ⟨ps, hps⟩ := genProductsLoop_ok gW pdW 1 1 0
  have h2 : generate_products gW pdW 1 = .ok ps := hps
  rw [h2]
  unfold productsW
  rw [h2]
  rfl

theorem productsW_length : productsW.length = 1 :=
  (generate_products_spec gW pdW 1 productsW productsW_spec).2.1

theorem resW_spec : generate_orders gW usersW productsW tW 1 = .ok resW := by
  rcases husers : usersW with _ | ⟨u, us⟩
  · have h := usersW_length
    rw [husers] at h
    simp at h
  rcases hprods : productsW with _ | ⟨p, ps⟩
  · have h := productsW_length
    rw [hprods] at h
    simp at h
  obtain ⟨r, hr⟩ := genLoop_ok gW u us p ps tW 1 1 1 1 0
  have h2 : generate_orders gW (u :: us) (p :: ps) tW 1 = .ok r := hr
  unfold resW
  rw [husers, hprods, h2]
  rfl

theorem resC7_spec : generate_orders gC7 usersW productsW tW 1 = .ok resC7 := by
  rcases husers : usersW with _ | ⟨u, us⟩
  · have h := usersW_length
    rw [husers] at h
    simp at h
  rcases hprods : productsW with _ | ⟨p, ps⟩
  · have h := productsW_length
    rw [hprods] at h
    simp at h
  obtain ⟨r, hr⟩ := genLoop_ok gC7 u us p ps tW 1 1 1 1 0
  have h2 : generate_orders gC7 (u :: us) (p :: ps) tW 1 = .ok r := hr
  unfold resC7
  rw [husers, hprods, h2]
  rfl

/-! ## Witness runs for the generator claims -/

theorem C1_order_total_is_rounded_item_sum_witness :
    resW.1.Forall fun o => o.total_amount = claimedTotal resW.2.1 o.order_id :=
  List.forall_iff_forall_mem.mpr
    (C1_order_total_is_rounded_item_sum gW gW gW pdW tW tW 1 1 1 usersW productsW
      resW.1 resW.2.1 resW.2.2 usersW_spec productsW_spec resW_spec)

theorem C4_one_payment_per_order_with_equal_amount_witness :
    resW.1.Forall fun o =>
      (resW.2.2.filter fun pay => pay.order_id == o.order_id).length = 1 ∧
      resW.2.2.Forall fun pay => pay.order_id = o.order_id → pay.amount = o.total_amount := by
  apply List.forall_iff_forall_mem.mpr
  intro o ho
  obtain ⟨ha, hb⟩ :=
    C4_one_payment_per_order_with_equal_amount gW gW gW pdW tW tW 1 1 1 usersW productsW
      resW.1 resW.2.1 resW.2.2 usersW_spec productsW_spec resW_spec o ho
  exact ⟨ha, List.forall_iff_forall_mem.mpr hb⟩

theorem C6_items_per_order_bounds_and_distinct_witness :
    resW.1.Forall fun o =>
      1 ≤ (itemsOf resW.2.1 o.order_id).length ∧
      (itemsOf resW.2.1 o.order_id).length ≤ 4 ∧
      ((itemsOf resW.2.1 o.order_id).map OrderItem.product_id).Nodup ∧
      (1 = 1 → (itemsOf resW.2.1 o.order_id).length = 1) :=
  List.forall_iff_forall_mem.mpr
    (C6_items_per_order_bounds_and_distinct gW gW gW pdW tW tW 1 1 1 usersW productsW
      resW.1 resW.2.1 resW.2.2 usersW_spec productsW_spec resW_spec)

theorem C7_paid_at_after_recorded_date_witness :
    resW.1.Forall fun o => resW.2.2.Forall fun pay => pay.order_id = o.order_id →
      o.order_date < pay.paid_at ∧
      o.order_date + 3600 ≤ pay.paid_at ∧
      pay.paid_at < o.order_date + 72 * 3600 := by
  apply List.forall_iff_forall_mem.mpr
  intro o ho
  apply List.forall_iff_forall_mem.mpr
  intro pay hpay
  exact C7_paid_at_after_recorded_date gW gW gW pdW tW tW 1 1 1 usersW productsW
    resW.1 resW.2.1 resW.2.2 usersW_spec productsW_spec resW_spec o ho pay hpay

theorem C10_payment_ids_match_order_ids_witness :
    (resW.2.2.Forall fun pay => pay.payment_id = pay.order_id) ∧
    resW.2.2.map Payment.payment_id = List.range' 1 1 := by
  obtain ⟨ha, hb⟩ :=
    C10_payment_ids_match_order_ids gW gW gW pdW tW tW 1 1 1 usersW productsW
      resW.1 resW.2.1 resW.2.2 usersW_spec productsW_spec resW_spec
  exact ⟨List.forall_iff_forall_mem.mpr ha, hb⟩

theorem C5_no_products_fails_before_output_witness :
    generateDataMain gW gW gW pdW tW 1 0 1 = .error "empty range for randrange" :=
  C5_no_products_fails_before_output gW gW gW pdW tW 1 1 (by decide) (by decide)

/-- C7 counterexample: a generated dataset (the `gC7` draw stream) whose
one payment is 71 hours after the recorded order date — beyond the claimed
48-hour ceiling.  The order was drawn at 23:00 of its day, the payment 48
hours later, and the order record keeps only the date. -/
theorem C7_counterexample :
    generate_users gW tW 1 = .ok usersW ∧
    generate_products gW pdW 1 = .ok productsW ∧
    generate_orders gC7 usersW productsW tW 1 = .ok resC7 ∧
    ∀ o ∈ resC7.1, ∀ pay ∈ resC7.2.2,
      pay.order_id = o.order_id ∧ o.order_date + 48 * 3600 < pay.paid_at :=
  ⟨usersW_spec, productsW_spec, resC7_spec, by decide⟩
